import Mathlib

/-!
Verification of the token ranking pipeline of the pumpfun-deployer-hunter
repository.  The active pipeline lives in `src/app/api/tokens/route.ts`
(first revision): a Source Fetcher pulls DexScreener pairs, a Normalizer maps
each raw pair to a canonical token record, an Attribute Enricher derives
synthetic deployer statistics from a character-code hash, a Filter Stage keeps
records over fixed numeric thresholds, a Ranker sorts descending and truncates,
and a Result Cache memoizes the ranked list for a fixed TTL.  The definitions
below embed those functions; numbers that JavaScript stores as binary64 are
modelled as exact rationals, with an explicit round-to-nearest model where the
result of a float operation matters.
-/

set_option maxRecDepth 100000

namespace Hunter

/-! ### A model of IEEE 754 binary64 rounding

`calculateDeployerStats` computes `Math.floor(totalTokens * (bondingRate / 100))`
with JavaScript numbers, i.e. two binary64 operations each rounded to nearest,
ties to even.  Every value arising there is a ratio `n / d` of naturals, and
every binary64 value is `m / 2 ^ E` for a 53-bit mantissa `m`, so the whole
computation is carried out on numerator/denominator pairs of naturals: an
operation computes the exact ratio and then rounds it to 53 significant bits.
The values are far from overflow and subnormal territory, so exponent handling
reduces to locating the binade. -/

/-- Number of binary digits of a natural number, with explicit fuel so the
kernel can evaluate it; for `n < 2 ^ 130` the fuel of `130` is enough. -/
def bitLenAux : Nat → Nat → Nat
  | 0, _ => 0
  | fuel + 1, n => if n = 0 then 0 else bitLenAux fuel (n / 2) + 1

/-- Number of binary digits of a natural number below `2 ^ 130`. -/
def bitLen (n : Nat) : Nat := bitLenAux 130 n

/-- Round the ratio `n / d` to the nearest integer, ties to even. -/
def rheDiv (n d : Nat) : Nat :=
  let q := n / d
  let r := n % d
  if 2 * r < d then q
  else if d < 2 * r then q + 1
  else if q % 2 = 0 then q else q + 1

/-- The binary64 value nearest to `n / d` (round to nearest, ties to even),
returned as a pair `(m, E)` whose value is `m / 2 ^ E`: the ratio is scaled so
that it lies in the mantissa range `[2 ^ 52, 2 ^ 53)` and rounded to an
integer, ties to even.  The binade is located through `bitLen (n * 2 ^ 60 / d)`,
which is exact for positive values between `2 ^ (-60)` and `2 ^ 53`, amply
covering every value this program produces. -/
def rnd53Pair (n d : Nat) : Nat × Nat :=
  if n = 0 then (0, 0)
  else
    let s := bitLen (n * 2 ^ 60 / d)
    (rheDiv (n * 2 ^ (113 - s)) d, 113 - s)

/-! ### The Attribute Enricher -/

/-- The hash used by `calculateDeployerStats`:
`deployer.split('').reduce((acc, char) => acc + char.charCodeAt(0), 0)`,
the sum of the character codes of the address string. -/
def hashString (s : String) : Nat :=
  s.data.foldl (fun acc c => acc + c.toNat) 0

/-- The `DeployerStats` interface of `src/lib/types.ts`.  All numeric fields of
the synthetic enricher are integers by construction, so they are carried as
naturals. -/
structure DeployerStats where
  address : String
  totalTokens : Nat
  bondedTokens : Nat
  bondingRate : Nat
deriving DecidableEq

/-- `Math.floor(totalTokens * (bondingRate / 100))` as JavaScript computes it:
`bondingRate / 100` is rounded to a binary64 value `m₁ / 2 ^ E₁`, the product
`totalTokens * (m₁ / 2 ^ E₁)` is rounded to a binary64 value `m₂ / 2 ^ E₂`,
and `Math.floor` of that value is `m₂ / 2 ^ E₂` rounded down, which is natural
division. -/
def jsBondedTokens (totalTokens bondingRate : Nat) : Nat :=
  let p₁ := rnd53Pair bondingRate 100
  let p₂ := rnd53Pair (totalTokens * p₁.1) (2 ^ p₁.2)
  p₂.1 / 2 ^ p₂.2

/-- Embedding of `calculateDeployerStats` (src/app/api/tokens/route.ts,
lines 167-179).  The source reads no ambient state (no `Math.random`, no
`Date.now`), so the embedding is a plain function of the address string. -/
def calculateDeployerStats (deployer : String) : DeployerStats :=
  let hash := hashString deployer
  let totalTokens := 5 + hash % 15
  let bondingRate := 50 + hash % 40
  let bondedTokens := jsBondedTokens totalTokens bondingRate
  { address := deployer
    totalTokens := totalTokens
    bondedTokens := bondedTokens
    bondingRate := bondingRate }

/-! ### The canonical token record

The `TokenData` interface of `src/lib/types.ts`.  JavaScript numbers are
modelled as exact rationals; counts that are integers by construction
(`holders`, `rank`) are carried as naturals and epoch timestamps as integers.
`bondingRate` and `rank` are absent until the Enricher and the Ranker attach
them; the embedding gives them value `0` at normalization time. -/
structure Token where
  mint : String
  name : String
  symbol : String
  uri : String
  marketCap : ℚ
  deployer : String
  holders : Nat
  createdAt : ℤ
  priceUsd : ℚ
  volume24h : ℚ
  priceChange24h : ℚ
  bondingRate : ℚ
  rank : Nat
deriving DecidableEq

/-- The fields of a DexScreener pair that the active Source Fetcher reads
(src/app/api/tokens/route.ts, lines 56-81).  Absent or null JSON fields are
`none`; the JavaScript `||`-defaulting is modelled by `Option.getD` (for the
numeric fields JavaScript also defaults on `0`, which coincides with `getD 0`).
`pairCreatedAt` holds the epoch milliseconds that `new Date(...).getTime()`
yields. -/
structure RawPair where
  baseTokenAddress : Option String
  baseTokenName : Option String
  baseTokenSymbol : Option String
  url : Option String
  liquidityUsd : Option ℚ
  pairAddress : Option String
  txnsH24Buys : Option Nat
  txnsH24Sells : Option Nat
  pairCreatedAt : Option ℤ
  priceUsd : Option ℚ
  volumeH24 : Option ℚ
  priceChangeH24 : Option ℚ
deriving DecidableEq

/-! ### Source Fetcher and Normalizer -/

/-- The raw-pair-to-token mapping inside `fetchRecentTokens`
(src/app/api/tokens/route.ts, lines 69-81). -/
def normalizeDex (pair : RawPair) : Token :=
  { mint := pair.baseTokenAddress.getD "unknown"
    name := pair.baseTokenName.getD "Unknown Token"
    symbol := pair.baseTokenSymbol.getD "UNKNOWN"
    uri := pair.url.getD ""
    marketCap := pair.liquidityUsd.getD 0
    deployer := pair.pairAddress.getD "unknown"
    holders := pair.txnsH24Buys.getD 0 + pair.txnsH24Sells.getD 0
    createdAt := pair.pairCreatedAt.getD 0
    priceUsd := pair.priceUsd.getD 0
    volume24h := pair.volumeH24.getD 0
    priceChange24h := pair.priceChangeH24.getD 0
    bondingRate := 0
    rank := 0 }

/-- The DexScreener normalizer with the ambient inputs a JavaScript function
could read (`Math.random`, `Date.now`) made explicit.  The source
(route.ts, lines 69-81) reads neither, so both are ignored. -/
def normalizeDexAmbient (pair : RawPair) (_rand : ℚ) (_now : ℤ) : Token :=
  normalizeDex pair

/-- The recency predicate of `fetchRecentTokens` (route.ts, lines 54-64):
a pair is kept when `pairCreatedAt` is present and newer than one hour before
`Date.now()`. -/
def isRecentPair (now : ℤ) (pair : RawPair) : Bool :=
  match pair.pairCreatedAt with
  | none => false
  | some createdTime => decide (now - 3600000 < createdTime)

/-- The successful branch of `fetchRecentTokens` (route.ts, lines 53-81):
keep recent pairs, truncate to 50, normalize. -/
def fetchRecentTokensOk (now : ℤ) (pairs : List RawPair) : List Token :=
  ((pairs.filter (isRecentPair now)).take 50).map normalizeDex

/-- `fetchRecentTokens` (route.ts, lines 31-87): a failed upstream call
(rejected promise or non-2xx status, the `Except.error` case) is caught and
degraded to the empty list. -/
def fetchRecentTokens (now : ℤ) (outcome : Except Unit (List RawPair)) : List Token :=
  match outcome with
  | .error _ => []
  | .ok pairs => fetchRecentTokensOk now pairs

/-! ### Filter Stage, Enricher application and Ranker -/

/-- The threshold filter of `analyzeTokens` (route.ts, lines 192-197):
a record passes when `holders >= 15` and `marketCap >= 6000`. -/
def filterStage (tokens : List Token) : List Token :=
  tokens.filter fun token =>
    decide (15 ≤ token.holders) && decide ((6000 : ℚ) ≤ token.marketCap)

/-- The sort keys observed across the pipeline variants: `bondingRate`
(route.ts, line 232), `holders` (src/unnamed/part_000, line 137) and
`marketCap`. -/
inductive SortKey where
  | byBondingRate
  | byHolders
  | byMarketCap
deriving DecidableEq

/-- The numeric value a sort key reads off a token. -/
def keyVal : SortKey → Token → ℚ
  | .byBondingRate, t => t.bondingRate
  | .byHolders, t => (t.holders : ℚ)
  | .byMarketCap, t => t.marketCap

/-- The comparator `(a, b) => b.key - a.key` passed to `Array.prototype.sort`:
`a` is placed before `b` exactly when `b.key <= a.key`, giving a descending
stable sort (ECMAScript sort is stable). -/
def sortLe (key : SortKey) (a b : Token) : Bool :=
  decide (keyVal key b ≤ keyVal key a)

/-- Overwrite the `rank` field, as `{ ...token, rank: index + 1 }` does. -/
def Token.setRank (t : Token) (r : Nat) : Token :=
  { t with rank := r }

/-- `.map((token, index) => ({ ...token, rank: index + 1 }))` starting from a
given first rank: element `i` of the result is element `i` of the input with
`rank` set to `k + i`. -/
def assignRanksFrom : Nat → List Token → List Token
  | _, [] => []
  | k, t :: ts => t.setRank k :: assignRanksFrom (k + 1) ts

/-- The Ranker (route.ts, lines 231-237; src/unnamed/part_000, lines 136-142):
sort descending by the key with a stable sort, truncate to the top `n`, and
assign `rank = index + 1`. -/
def rankTokens (key : SortKey) (n : Nat) (tokens : List Token) : List Token :=
  assignRanksFrom 1 ((tokens.mergeSort (sortLe key)).take n)

/-- The deployer-reputation step of `analyzeTokens` (route.ts, lines 206-227).
The source builds `deployerStatsMap` by calling `calculateDeployerStats` once
per unique deployer and then looks each token's deployer up; since that
function is pure, the map is memoization and every lookup succeeds, so the
embedding applies the function directly: keep tokens whose deployer has
`bondingRate > 50` and attach that rate. -/
def enrichQualify (filteredTokens : List Token) : List Token :=
  (filteredTokens.filter fun token =>
      decide (50 < (calculateDeployerStats token.deployer).bondingRate)).map
    fun token =>
      { token with bondingRate := ((calculateDeployerStats token.deployer).bondingRate : ℚ) }

/-- `analyzeTokens` (route.ts, lines 181-247), as a function of the fetch
outcome: fetch, bail out on an empty list, filter by thresholds, bail out on an
empty list, qualify by deployer reputation, rank by bonding rate and keep the
top 10. -/
def analyzeTokens (now : ℤ) (outcome : Except Unit (List RawPair)) : List Token :=
  let recentTokens := fetchRecentTokens now outcome
  if recentTokens.length = 0 then []
  else
    let filteredTokens := filterStage recentTokens
    if filteredTokens.length = 0 then []
    else rankTokens .byBondingRate 10 (enrichQualify filteredTokens)

/-! ### The GET handler and its caches -/

/-- The `VolumeToken` interface of route.ts, lines 8-21. -/
structure VolumeToken where
  rank : Nat
  symbol : String
  name : String
  volume1h : ℚ
  volume24h : ℚ
  priceUsd : ℚ
  priceChange1h : ℚ
  priceChange24h : ℚ
  marketCap : ℚ
  txns1h : Nat
  url : String
  pairAddress : String
deriving DecidableEq

/-- The module-level mutable cache of route.ts, lines 24-27: one slot per
view. -/
structure ServerState where
  cachedTokens : List Token
  lastFetchTime : ℤ
  cachedVolumeTokens : List VolumeToken
  lastVolumeFetchTime : ℤ
deriving DecidableEq

/-- `CACHE_DURATION = 5 * 60 * 1000` (route.ts, line 28). -/
def CACHE_DURATION : ℤ := 5 * 60 * 1000

/-- The JSON body the default view responds with (route.ts, lines 290-296). -/
structure TokensResponse where
  success : Bool
  tokens : List Token
  lastUpdated : ℤ
  nextUpdate : ℤ
  message : Option String
deriving DecidableEq

/-- The JSON body the volume view responds with (route.ts, lines 271-277). -/
structure VolumeResponse where
  success : Bool
  tokens : List VolumeToken
  lastUpdated : ℤ
  nextUpdate : ℤ
  count : Nat
deriving DecidableEq

/-- The default-view branch of `GET` (route.ts, lines 281-296): refresh the
cache when it is stale (`now - lastFetchTime > CACHE_DURATION`) or empty, then
respond from it.  The returned boolean records whether `analyzeTokens` (and
hence the Source Fetcher) was invoked during this request. -/
def handleTokensGET (st : ServerState) (now : ℤ) (outcome : Except Unit (List RawPair)) :
    TokensResponse × ServerState × Bool :=
  if CACHE_DURATION < now - st.lastFetchTime ∨ st.cachedTokens.length = 0 then
    let result := analyzeTokens now outcome
    ({ success := true
       tokens := result
       lastUpdated := now
       nextUpdate := now + CACHE_DURATION
       message := if result.length = 0 then some "No tokens found matching criteria" else none },
     { st with cachedTokens := result, lastFetchTime := now }, true)
  else
    ({ success := true
       tokens := st.cachedTokens
       lastUpdated := st.lastFetchTime
       nextUpdate := st.lastFetchTime + CACHE_DURATION
       message := if st.cachedTokens.length = 0 then some "No tokens found matching criteria" else none },
     st, false)

/-- The volume-view branch of `GET` (route.ts, lines 259-277), with the result
of `fetchHighVolumeTokens` passed in.  The returned boolean records whether the
volume fetcher was invoked. -/
def handleVolumeGET (st : ServerState) (now : ℤ) (volumeResult : List VolumeToken) :
    VolumeResponse × ServerState × Bool :=
  if CACHE_DURATION < now - st.lastVolumeFetchTime ∨ st.cachedVolumeTokens.length = 0 then
    ({ success := true
       tokens := volumeResult
       lastUpdated := now
       nextUpdate := now + CACHE_DURATION
       count := volumeResult.length },
     { st with cachedVolumeTokens := volumeResult, lastVolumeFetchTime := now }, true)
  else
    ({ success := true
       tokens := st.cachedVolumeTokens
       lastUpdated := st.lastVolumeFetchTime
       nextUpdate := st.lastVolumeFetchTime + CACHE_DURATION
       count := st.cachedVolumeTokens.length },
     st, false)

/-! ### The PumpFun-variant Normalizer (src/unnamed/part_000, lines 86-109)

This variant estimates `holders` with `Math.floor(Math.random() * 20)` and
falls back to `Date.now()`-derived timestamps, so its normalizer reads ambient
state.  The embedding makes those two ambient inputs explicit parameters:
`rand` is the `Math.random()` draw in `[0, 1)` and `now` is `Date.now()`.
The float division `marketCap / 100` is modelled exactly; the inputs used in
the development below make it exact in binary64 as well. -/

/-- The fields of a PumpFun coin record that the part_000 normalizer reads. -/
structure RawPumpToken where
  mint : Option String
  name : Option String
  symbol : Option String
  image_uri : Option String
  twitter : Option String
  usd_market_cap : Option ℚ
  creator : Option String
  created_timestamp : Option ℤ
deriving DecidableEq

/-- The raw-record-to-token mapping of the part_000 `analyzeTokens`
(src/unnamed/part_000, lines 86-109).  `index` is the position in the fetched
list, used by the fallback timestamp `Date.now() - index * 60000`. -/
def normalizePump (token : RawPumpToken) (index : Nat) (rand : ℚ) (now : ℤ) : Token :=
  let deployer := token.creator.getD "unknown"
  let deployerStats := calculateDeployerStats deployer
  let marketCap := token.usd_market_cap.getD 0
  let estimatedHolders :=
    if 0 < marketCap then max 1 ((⌊marketCap / 100⌋).toNat + (⌊rand * 20⌋).toNat)
    else 1
  let createdTimestamp :=
    match token.created_timestamp with
    | some ts => ts * 1000
    | none => now - (index : ℤ) * 60000
  { mint := token.mint.getD ("unknown_" ++ toString index)
    name := token.name.getD "Unknown Token"
    symbol := token.symbol.getD "UNKNOWN"
    uri := (token.image_uri.or token.twitter).getD "https://pump.fun"
    marketCap := marketCap
    deployer := deployer
    holders := estimatedHolders
    createdAt := createdTimestamp
    priceUsd := 0
    volume24h := 0
    priceChange24h := 0
    bondingRate := (deployerStats.bondingRate : ℚ)
    rank := 0 }

/-! ### Helper lemmas shared by the theorems below -/

/-- On the whole range the enricher can produce (`totalTokens ∈ [5, 19]`,
`bondingRate ∈ [50, 89]`), the binary64 computation
`Math.floor(totalTokens * (bondingRate / 100))` agrees with exact integer
arithmetic: it equals `totalTokens * bondingRate / 100` rounded down.  Checked
exhaustively over all 600 pairs. -/
theorem jsBondedTokens_eq_floorDiv : ∀ x < 15, ∀ y < 40,
    jsBondedTokens (5 + x) (50 + y) = (5 + x) * (50 + y) / 100 := by decide

/-- The `bondedTokens` field of any enricher result is the exact floor of
`totalTokens * bondingRate / 100`. -/
theorem calculateDeployerStats_bondedTokens (a : String) :
    (calculateDeployerStats a).bondedTokens =
      (calculateDeployerStats a).totalTokens * (calculateDeployerStats a).bondingRate / 100 :=
  jsBondedTokens_eq_floorDiv (hashString a % 15) (Nat.mod_lt _ (by norm_num))
    (hashString a % 40) (Nat.mod_lt _ (by norm_num))

/-! ### C3: enricher formula and determinism -/

/-- C3.  For every address string `a`, `calculateDeployerStats a` is
deterministic (it reads no ambient state, so two calls with the same `a` give
equal results) and satisfies `totalTokens = 5 + hash a % 15 ∈ [5, 19]` and
`bondingRate = 50 + hash a % 40 ∈ [50, 90)`, where `hash a` sums the character
codes of `a`. -/
theorem c3_enricher_formula (a : String) :
    calculateDeployerStats a = calculateDeployerStats a ∧
    (calculateDeployerStats a).totalTokens = 5 + hashString a % 15 ∧
    5 ≤ (calculateDeployerStats a).totalTokens ∧
    (calculateDeployerStats a).totalTokens ≤ 19 ∧
    (calculateDeployerStats a).bondingRate = 50 + hashString a % 40 ∧
    50 ≤ (calculateDeployerStats a).bondingRate ∧
    (calculateDeployerStats a).bondingRate < 90 := by
  refine ⟨rfl, rfl, ?_, ?_, rfl, ?_, ?_⟩ <;>
    simp only [calculateDeployerStats] <;> omega

/-! ### C5: the floor equation, JavaScript floats versus exact integers -/

/-- C5.  For every address `a`, the `bondedTokens` the program computes with
binary64 arithmetic (`Math.floor(totalTokens * (bondingRate / 100))`) equals
the exact integer reading `⌊totalTokens * bondingRate / 100⌋`, stated both as
natural division and as the rational floor. -/
theorem c5_floor_equation (a : String) :
    (calculateDeployerStats a).bondedTokens =
      (calculateDeployerStats a).totalTokens * (calculateDeployerStats a).bondingRate / 100 ∧
    ((calculateDeployerStats a).bondedTokens : ℤ) =
      ⌊(((calculateDeployerStats a).totalTokens : ℚ) *
          ((calculateDeployerStats a).bondingRate : ℚ) / 100)⌋ := by
  refine ⟨calculateDeployerStats_bondedTokens a, ?_⟩
  have h := calculateDeployerStats_bondedTokens a
  set t := (calculateDeployerStats a).totalTokens
  set b := (calculateDeployerStats a).bondingRate
  have hcast : ((t : ℚ) * (b : ℚ) / 100) = (((t * b : ℕ) : ℤ) : ℚ) / ((100 : ℕ) : ℚ) := by
    push_cast
    ring
  rw [h, hcast, Rat.floor_intCast_div_natCast]
  push_cast
  omega

/-! ### C6: internal consistency of DeployerStats -/

/-- C6 counterexample.  At the address `"y"` (character-code sum 121) the
enricher returns `totalTokens = 6`, `bondedTokens = 3`, `bondingRate = 51`,
and `3 / 6 * 100 = 50 ≠ 51`: the claimed identity
`bondingRate = bondedTokens / totalTokens * 100` fails. -/
theorem c6_counterexample :
    ¬ (((calculateDeployerStats "y").bondingRate : ℚ) =
        ((calculateDeployerStats "y").bondedTokens : ℚ) /
          ((calculateDeployerStats "y").totalTokens : ℚ) * 100) := by
  have h : calculateDeployerStats "y" = ⟨"y", 6, 3, 51⟩ := by decide
  rw [h]
  norm_num

/-- C6 amended.  `totalTokens` is never zero, and `bondingRate` satisfies the
floor relation only approximately:
`bondedTokens / totalTokens * 100 ≤ bondingRate < (bondedTokens + 1) / totalTokens * 100`.
Exact equality `bondingRate = bondedTokens / totalTokens * 100` does not hold
in general. -/
theorem c6_amended (a : String) :
    0 < (calculateDeployerStats a).totalTokens ∧
    ((calculateDeployerStats a).bondedTokens : ℚ) /
        ((calculateDeployerStats a).totalTokens : ℚ) * 100
      ≤ ((calculateDeployerStats a).bondingRate : ℚ) ∧
    ((calculateDeployerStats a).bondingRate : ℚ) <
      (((calculateDeployerStats a).bondedTokens : ℚ) + 1) /
          ((calculateDeployerStats a).totalTokens : ℚ) * 100 := by
  have h := calculateDeployerStats_bondedTokens a
  set t := (calculateDeployerStats a).totalTokens with ht
  set b := (calculateDeployerStats a).bondingRate
  set d := (calculateDeployerStats a).bondedTokens
  have htpos : 0 < t := by
    have : t = 5 + hashString a % 15 := rfl
    omega
  have htq : (0 : ℚ) < (t : ℚ) := by exact_mod_cast htpos
  have h1 : 100 * d ≤ t * b := by omega
  have h2 : t * b < 100 * (d + 1) := by omega
  refine ⟨htpos, ?_, ?_⟩
  · rw [div_mul_eq_mul_div, div_le_iff₀ htq]
    calc ((d : ℚ) * 100) = ((100 * d : ℕ) : ℚ) := by push_cast; ring
    _ ≤ ((t * b : ℕ) : ℚ) := by exact_mod_cast h1
    _ = (b : ℚ) * (t : ℚ) := by push_cast; ring
  · rw [div_mul_eq_mul_div, lt_div_iff₀ htq]
    calc (b : ℚ) * (t : ℚ) = ((t * b : ℕ) : ℚ) := by push_cast; ring
    _ < ((100 * (d + 1) : ℕ) : ℚ) := by exact_mod_cast h2
    _ = ((d : ℚ) + 1) * 100 := by push_cast; ring

/-! ### C1: the Filter Stage -/

/-- C1.  For every token list `L`, the filter output is a subsequence of `L`
(no record added or reordered), a record is in the output exactly when it is in
`L` and meets both thresholds (`holders >= 15` and `marketCap >= 6000`
conjunctively), and multiplicities are preserved on passing records and zero on
failing ones (no record duplicated or dropped). -/
theorem c1_filter_stage (L : List Token) :
    List.Sublist (filterStage L) L ∧
    (∀ t : Token, t ∈ filterStage L ↔ t ∈ L ∧ 15 ≤ t.holders ∧ (6000 : ℚ) ≤ t.marketCap) ∧
    (∀ t : Token, (filterStage L).count t =
      if 15 ≤ t.holders ∧ (6000 : ℚ) ≤ t.marketCap then L.count t else 0) := by
  refine ⟨List.filter_sublist L, fun t => ?_, fun t => ?_⟩
  · simp [filterStage, List.mem_filter, and_assoc]
  · by_cases h : 15 ≤ t.holders ∧ (6000 : ℚ) ≤ t.marketCap
    · rw [if_pos h]
      exact List.count_filter (by simpa [filterStage] using h)
    · rw [if_neg h]
      refine List.count_eq_zero.mpr fun hmem => h ?_
      have := (List.mem_filter.mp hmem).2
      simpa [filterStage, and_assoc] using this

/-! ### C2: the Ranker -/

/-- Overwriting `rank` does not change any sort key. -/
theorem keyVal_setRank (key : SortKey) (t : Token) (r : Nat) :
    keyVal key (t.setRank r) = keyVal key t := by
  cases key <;> rfl

/-- Rank assignment does not change the sequence of sort-key values. -/
theorem map_keyVal_assignRanksFrom (key : SortKey) :
    ∀ (k : Nat) (l : List Token),
      (assignRanksFrom k l).map (keyVal key) = l.map (keyVal key)
  | _, [] => rfl
  | k, t :: ts => by
    simp [assignRanksFrom, keyVal_setRank, map_keyVal_assignRanksFrom key (k + 1) ts]

/-- Rank assignment does not change the mint column. -/
theorem map_mint_assignRanksFrom :
    ∀ (k : Nat) (l : List Token),
      (assignRanksFrom k l).map Token.mint = l.map Token.mint
  | _, [] => rfl
  | k, t :: ts => by
    simp [assignRanksFrom, Token.setRank, map_mint_assignRanksFrom (k + 1) ts]

/-- The rank column produced by `assignRanksFrom k` is `k, k+1, ...`. -/
theorem map_rank_assignRanksFrom :
    ∀ (k : Nat) (l : List Token),
      (assignRanksFrom k l).map Token.rank = List.range' k l.length
  | _, [] => rfl
  | k, t :: ts => by
    simp [assignRanksFrom, Token.setRank, map_rank_assignRanksFrom (k + 1) ts,
      List.range']

/-- Rank assignment preserves length. -/
theorem length_assignRanksFrom (k : Nat) (l : List Token) :
    (assignRanksFrom k l).length = l.length := by
  have h := congrArg List.length (map_rank_assignRanksFrom k l)
  simpa using h

/-- The comparator is transitive. -/
theorem sortLe_trans (key : SortKey) (a b c : Token) :
    sortLe key a b → sortLe key b c → sortLe key a c := by
  simp only [sortLe, decide_eq_true_eq]
  exact fun h₁ h₂ => le_trans h₂ h₁

/-- The comparator is total. -/
theorem sortLe_total (key : SortKey) (a b : Token) :
    sortLe key a b || sortLe key b a := by
  rcases le_total (keyVal key a) (keyVal key b) with h | h <;>
    simp [sortLe, h]

/-- C2.  For every token list `L`, sort key and limit `n`, the Ranker returns
at most `n` elements, their key values are in descending order, and the `rank`
column is exactly the dense sequence `1, 2, ..., length` (element `i` carries
rank `i + 1`). -/
theorem c2_ranker (key : SortKey) (n : Nat) (L : List Token) :
    (rankTokens key n L).length ≤ n ∧
    ((rankTokens key n L).map (keyVal key)).Pairwise (· ≥ ·) ∧
    (rankTokens key n L).map Token.rank = List.range' 1 (rankTokens key n L).length := by
  refine ⟨?_, ?_, ?_⟩
  · rw [rankTokens, length_assignRanksFrom]
    exact (List.length_take_le n _)
  · have hsorted : ((L.mergeSort (sortLe key)).Pairwise fun a b => sortLe key a b) :=
      List.sorted_mergeSort (sortLe_trans key) (sortLe_total key) L
    have htake : (((L.mergeSort (sortLe key)).take n).Pairwise fun a b => sortLe key a b) :=
      hsorted.sublist (List.take_sublist n _)
    rw [rankTokens, map_keyVal_assignRanksFrom]
    rw [List.pairwise_map]
    exact htake.imp fun h => by
      simpa [sortLe, ge_iff_le, decide_eq_true_eq] using h
  · rw [rankTokens, map_rank_assignRanksFrom, length_assignRanksFrom]

/-! ### C4: cache hit behavior -/

/-- A sample token used to instantiate hypotheses at concrete inputs. -/
def sampleToken : Token :=
  { mint := "So11111111111111111111111111111111111111112"
    name := "Sample"
    symbol := "SMP"
    uri := ""
    marketCap := 7000
    deployer := "y"
    holders := 20
    createdAt := 1
    priceUsd := 0
    volume24h := 0
    priceChange24h := 0
    bondingRate := 51
    rank := 0 }

/-- C4 counterexample.  A GET that arrives 1000 ms after a cache store (well
within the 5-minute TTL) with the empty list stored still invokes the pipeline:
the handler's refresh branch fires on `cachedTokens.length === 0` even when the
cache is fresh, so the claim fails for the empty stored list. -/
theorem c4_counterexample :
    (1000 : ℤ) - 0 < CACHE_DURATION ∧
    (handleTokensGET ⟨[], 0, [], 0⟩ 1000 (Except.ok [])).2.2 = true := by
  constructor
  · decide
  · rfl

/-- C4 amended.  For every GET that arrives within the TTL of the last cache
store with a *nonempty* stored list, the handler returns exactly the stored
list without invoking the Source Fetcher; when the stored list is empty the
pipeline is recomputed even within the TTL. -/
theorem c4_amended (st : ServerState) (now : ℤ) (outcome : Except Unit (List RawPair))
    (hfresh : now - st.lastFetchTime ≤ CACHE_DURATION) (hne : st.cachedTokens ≠ []) :
    handleTokensGET st now outcome =
      ({ success := true
         tokens := st.cachedTokens
         lastUpdated := st.lastFetchTime
         nextUpdate := st.lastFetchTime + CACHE_DURATION
         message := none }, st, false) := by
  have h1 : ¬ CACHE_DURATION < now - st.lastFetchTime := not_lt.mpr hfresh
  have h2 : ¬ st.cachedTokens.length = 0 := by
    simpa [List.length_eq_zero] using hne
  simp [handleTokensGET, h1, h2]

/-- C4 amended, witnessed at a concrete fresh state holding one token. -/
theorem c4_amended_witness :
    ((1000 : ℤ) - 0 ≤ CACHE_DURATION ∧ ([sampleToken] : List Token) ≠ []) ∧
    handleTokensGET ⟨[sampleToken], 0, [], 0⟩ 1000 (Except.ok []) =
      ({ success := true
         tokens := [sampleToken]
         lastUpdated := 0
         nextUpdate := 0 + CACHE_DURATION
         message := none }, ⟨[sampleToken], 0, [], 0⟩, false) :=
  ⟨⟨by decide, by simp⟩,
    c4_amended ⟨[sampleToken], 0, [], 0⟩ 1000 (Except.ok []) (by decide) (by simp)⟩

/-! ### C7: response on upstream fetch failure -/

/-- A failed upstream call yields the empty analysis result. -/
theorem analyzeTokens_error (now : ℤ) : analyzeTokens now (Except.error ()) = [] := rfl

/-- C7 counterexample.  With an empty, stale cache and a failing upstream call,
the GET handler responds with `success: true` (and `tokens: []`), not the
claimed `success: false`: the fetch failure is swallowed inside the fetcher and
never reaches the handler's error branch. -/
theorem c7_counterexample :
    (handleTokensGET ⟨[], 0, [], 0⟩ 1000000 (Except.error ())).1.success = true ∧
    (handleTokensGET ⟨[], 0, [], 0⟩ 1000000 (Except.error ())).1.tokens = [] := by
  constructor <;> rfl

/-- C7 amended.  Whenever the upstream HTTP call fails during a pipeline run
(the cache was stale or empty, so the fetcher actually ran), the fetcher
degrades to the empty list and the GET handler returns a normal response with
`success: true` and `tokens: []` (plus the no-tokens message) without crashing;
`success: false` is reserved for exceptions that escape to the handler's catch
block. -/
theorem c7_amended (st : ServerState) (now : ℤ)
    (h : CACHE_DURATION < now - st.lastFetchTime ∨ st.cachedTokens.length = 0) :
    (handleTokensGET st now (Except.error ())).1.success = true ∧
    (handleTokensGET st now (Except.error ())).1.tokens = [] ∧
    (handleTokensGET st now (Except.error ())).2.1.cachedTokens = [] := by
  rw [handleTokensGET, if_pos h]
  exact ⟨rfl, rfl, rfl⟩

/-- C7 amended, witnessed at a concrete stale state. -/
theorem c7_amended_witness :
    (CACHE_DURATION < (1000000 : ℤ) - 0 ∨ ([] : List Token).length = 0) ∧
    ((handleTokensGET ⟨[], 0, [], 0⟩ 1000000 (Except.error ())).1.success = true ∧
      (handleTokensGET ⟨[], 0, [], 0⟩ 1000000 (Except.error ())).1.tokens = [] ∧
      (handleTokensGET ⟨[], 0, [], 0⟩ 1000000 (Except.error ())).2.1.cachedTokens = []) :=
  ⟨Or.inl (by decide), c7_amended ⟨[], 0, [], 0⟩ 1000000 (Or.inl (by decide))⟩

/-! ### C10: the response-timestamp law -/

/-- C10.  Every response of the default view and of the volume view satisfies
`nextUpdate = lastUpdated + CACHE_DURATION`, and `lastUpdated` equals the
post-request store timestamp of that view's cache slot (on a hit the slot is
unchanged, so this is the most recent store; on a refresh it is the store just
performed). -/
theorem c10_response_timestamps (st : ServerState) (now : ℤ)
    (outcome : Except Unit (List RawPair)) (volumeResult : List VolumeToken) :
    (handleTokensGET st now outcome).1.nextUpdate =
        (handleTokensGET st now outcome).1.lastUpdated + CACHE_DURATION ∧
    (handleTokensGET st now outcome).1.lastUpdated =
        (handleTokensGET st now outcome).2.1.lastFetchTime ∧
    (handleVolumeGET st now volumeResult).1.nextUpdate =
        (handleVolumeGET st now volumeResult).1.lastUpdated + CACHE_DURATION ∧
    (handleVolumeGET st now volumeResult).1.lastUpdated =
        (handleVolumeGET st now volumeResult).2.1.lastVolumeFetchTime := by
  refine ⟨?_, ?_, ?_, ?_⟩ <;> (simp only [handleTokensGET, handleVolumeGET]; split <;> rfl)

/-! ### C8: Normalizer purity -/

/-- C8 counterexample.  The PumpFun-variant normalizer (src/unnamed/part_000)
is not a pure function of the raw record: with `usd_market_cap = 200`, a
`Math.random()` draw of `0` gives `holders = max 1 (2 + 0) = 2` while a draw of
`19/20` gives `holders = max 1 (2 + 19) = 21`, so two applications to the same
raw record differ. -/
theorem c8_counterexample :
    normalizePump ⟨some "m", some "n", some "s", some "u", none, some 200, some "y", some 0⟩
        0 0 0 ≠
      normalizePump ⟨some "m", some "n", some "s", some "u", none, some 200, some "y", some 0⟩
        0 (19 / 20) 0 := by
  intro h
  have hh := congrArg Token.holders h
  have e1 : ((200 : ℚ) / 100) = ((2 : ℤ) : ℚ) := by norm_num
  have e2 : ((0 : ℚ) * 20) = ((0 : ℤ) : ℚ) := by norm_num
  have e3 : ((19 / 20 : ℚ) * 20) = ((19 : ℤ) : ℚ) := by norm_num
  simp only [normalizePump, Option.getD_some] at hh
  rw [if_pos (by norm_num), if_pos (by norm_num), e1, e2, e3,
    Int.floor_intCast, Int.floor_intCast, Int.floor_intCast] at hh
  simp at hh

/-- C8 amended.  The claim holds for the active DexScreener pipeline: its
normalizer reads neither `Math.random` nor `Date.now`, so two applications to
the same raw pair are equal whatever the ambient state; the PumpFun variant
(src/unnamed/part_000) violates purity through its randomized holder
estimate. -/
theorem c8_amended (p : RawPair) (rand₁ rand₂ : ℚ) (now₁ now₂ : ℤ) :
    normalizeDexAmbient p rand₁ now₁ = normalizeDexAmbient p rand₂ now₂ := rfl

/-! ### C9: mint uniqueness in the pipeline output -/

/-- The Ranker preserves absence of duplicate mints. -/
theorem nodup_mint_rankTokens (key : SortKey) (n : Nat) (l : List Token)
    (h : (l.map Token.mint).Nodup) : ((rankTokens key n l).map Token.mint).Nodup := by
  rw [rankTokens, map_mint_assignRanksFrom]
  have hperm : ((l.mergeSort (sortLe key)).map Token.mint).Perm (l.map Token.mint) :=
    (List.mergeSort_perm l (sortLe key)).map Token.mint
  have hnodup : ((l.mergeSort (sortLe key)).map Token.mint).Nodup :=
    hperm.nodup_iff.mpr h
  exact hnodup.sublist ((List.take_sublist n _).map Token.mint)

/-- The deployer-reputation step only filters and rewrites `bondingRate`, so
the mint column it produces is the filtered mint column. -/
theorem map_mint_enrichQualify (l : List Token) :
    (enrichQualify l).map Token.mint =
      ((l.filter fun t =>
          decide (50 < (calculateDeployerStats t.deployer).bondingRate)).map Token.mint) := by
  rw [enrichQualify, List.map_map]
  rfl

/-- C9 amended.  The pipeline never manufactures a duplicate (filtering,
sorting, truncating and rank assignment preserve mint multiplicities), so
whenever the fetched, normalized list has pairwise-distinct mints the final
ranked output does too.  Distinctness of the input is not enforced anywhere,
and the claim fails when the upstream response repeats a base token. -/
theorem c9_amended (now : ℤ) (pairs : List RawPair)
    (h : ((fetchRecentTokensOk now pairs).map Token.mint).Nodup) :
    ((analyzeTokens now (Except.ok pairs)).map Token.mint).Nodup := by
  have hfetch : fetchRecentTokens now (Except.ok pairs) = fetchRecentTokensOk now pairs := rfl
  simp only [analyzeTokens, hfetch]
  by_cases h1 : (fetchRecentTokensOk now pairs).length = 0
  · simp [h1]
  · rw [if_neg h1]
    by_cases h2 : (filterStage (fetchRecentTokensOk now pairs)).length = 0
    · simp [h2]
    · rw [if_neg h2]
      apply nodup_mint_rankTokens
      rw [map_mint_enrichQualify]
      exact h.sublist
        (((List.filter_sublist _).trans (List.filter_sublist _)).map Token.mint)

unseal List.merge List.mergeSort in
/-- C9 counterexample.  Two upstream pairs listing the same base token
`"m"` from two pools (pair addresses `"y"` and `"yy"`), both recent, liquid
and actively traded, pass every stage: the final ranked output carries the
mint `"m"` twice, refuting pairwise distinctness of the output mints. -/
theorem c9_counterexample :
    ¬ ((analyzeTokens 1000 (Except.ok
        [⟨some "m", some "n", some "s", some "u", some 7000, some "y",
            some 10, some 10, some 1, some 0, some 0, some 0⟩,
          ⟨some "m", some "n2", some "s2", some "u2", some 8000, some "yy",
            some 10, some 10, some 1, some 0, some 0, some 0⟩])).map Token.mint).Nodup := by
  decide

/-- C9 amended, witnessed at a concrete single-pair fetch. -/
theorem c9_amended_witness :
    ((fetchRecentTokensOk 1000
        [⟨some "m", some "n", some "s", some "u", some 7000, some "y",
            some 10, some 10, some 1, some 0, some 0, some 0⟩]).map Token.mint).Nodup ∧
    ((analyzeTokens 1000 (Except.ok
        [⟨some "m", some "n", some "s", some "u", some 7000, some "y",
            some 10, some 10, some 1, some 0, some 0, some 0⟩])).map Token.mint).Nodup :=
  ⟨by decide,
    c9_amended 1000
      [⟨some "m", some "n", some "s", some "u", some 7000, some "y",
          some 10, some 10, some 1, some 0, some 0, some 0⟩] (by decide)⟩

end Hunter
